import Mathlib

/-!
# argocd-extension-pod-files: cluster credential resolution and staged transfers

A shallow embedding of `main.go`.

* Go `string` and `[]byte` values that the program only compares, searches,
  splits and concatenates are sequences of symbols: `GoString = List Char`.
* Raw bytes produced by base64 decoding are `Byte = Fin 256`.
* `(T, error)` results are `Except GoString T`, the error being its message.
* The effects (secret listing, filesystem, `kubectl`) are explicit state.
-/

namespace PodFiles

/-- A Go string, as the sequence of its symbols. -/
abbrev GoString := List Char

/-- One byte of a `[]byte` holding binary data. -/
abbrev Byte := Fin 256

/-! ## The `strings` package -/

/-- `strings.Index(s, substr)`: position of the first occurrence of `substr`. -/
def Index : GoString → GoString → Option Nat
  | [], substr => if substr = [] then some 0 else none
  | c :: cs, substr =>
    if substr.isPrefixOf (c :: cs) then some 0
    else (Index cs substr).map (· + 1)

/-- `strings.Contains(s, substr)`. -/
def Contains (s substr : GoString) : Bool := (Index s substr).isSome

/-- The loop of `strings.Split` for a non-empty separator: cut at the leftmost
occurrence and go on with what follows it. `fuel` bounds the number of cuts. -/
def splitLoop (sep : GoString) : Nat → GoString → List GoString
  | 0, s => [s]
  | fuel + 1, s =>
    match Index s sep with
    | none => [s]
    | some m => s.take m :: splitLoop sep fuel (s.drop (m + sep.length))

/-- `strings.Split(s, sep)` for a non-empty `sep`. Every cut consumes at least
one symbol, so `s.length` cuts are enough. -/
def Split (s sep : GoString) : List GoString := splitLoop sep s.length s

/-- `strings.HasSuffix(s, suffix)`. -/
def HasSuffix (s suffix : GoString) : Bool := suffix.isSuffixOf s

/-- `strings.TrimSuffix(s, suffix)`. -/
def TrimSuffix (s suffix : GoString) : GoString :=
  if HasSuffix s suffix then s.take (s.length - suffix.length) else s

/-! ## `encoding/base64`, `StdEncoding` (RFC 4648 alphabet, `=` padding) -/

/-- The alphabet of `base64.StdEncoding`. -/
def encodeStd : GoString :=
  "ABCDEFGHIJKLMNOPQRSTUVWXYZabcdefghijklmnopqrstuvwxyz0123456789+/".toList

/-- The symbol `enc.encode[v]` of a 6-bit value. -/
def encodeChar (v : Nat) : Char := encodeStd.getD v 'A'

/-- The 6-bit value `enc.decodeMap[c]` of a symbol, `none` for `0xff`. -/
def decodeMap (c : Char) : Option Nat :=
  if encodeStd.indexOf c < 64 then some (encodeStd.indexOf c) else none

/-- The low eight bits of a number, as a byte. -/
def toByte (n : Nat) : Byte := ⟨n % 256, Nat.mod_lt n (by decide)⟩

/-- `base64.StdEncoding.EncodeToString`: three bytes give four symbols, a last
group of one or two bytes is padded with `=`. -/
def EncodeToString : List Byte → GoString
  | [] => []
  | [a] =>
    let val := a.val * 65536
    [encodeChar (val / 262144 % 64), encodeChar (val / 4096 % 64), '=', '=']
  | [a, b] =>
    let val := a.val * 65536 + b.val * 256
    [encodeChar (val / 262144 % 64), encodeChar (val / 4096 % 64),
      encodeChar (val / 64 % 64), '=']
  | a :: b :: c :: rest =>
    let val := a.val * 65536 + b.val * 256 + c.val
    encodeChar (val / 262144 % 64) :: encodeChar (val / 4096 % 64) ::
      encodeChar (val / 64 % 64) :: encodeChar (val % 64) :: EncodeToString rest

/-- The quanta of `Encoding.Decode` once line breaks are dropped: groups of four
symbols, the last one possibly `xx==` or `xxx=`, nothing after the padding. -/
def decodeQuanta : GoString → Option (List Byte)
  | [] => some []
  | [_] => none
  | [_, _] => none
  | [_, _, _] => none
  | a :: b :: c :: d :: rest =>
    match decodeMap a, decodeMap b with
    | some x, some y =>
      if c = '=' then
        if d = '=' ∧ rest = [] then
          some [toByte ((x * 262144 + y * 4096) / 65536)]
        else none
      else
        match decodeMap c with
        | none => none
        | some z =>
          if d = '=' then
            if rest = [] then
              some [toByte ((x * 262144 + y * 4096 + z * 64) / 65536),
                toByte ((x * 262144 + y * 4096 + z * 64) / 256)]
            else none
          else
            match decodeMap d with
            | none => none
            | some w =>
              (decodeQuanta rest).map fun tl =>
                toByte ((x * 262144 + y * 4096 + z * 64 + w) / 65536) ::
                  toByte ((x * 262144 + y * 4096 + z * 64 + w) / 256) ::
                  toByte (x * 262144 + y * 4096 + z * 64 + w) :: tl
    | _, _ => none

/-- `base64.StdEncoding.DecodeString`, `none` when it reports an error. The
decoder skips `\r` and `\n` wherever they stand. -/
def DecodeString (s : GoString) : Option (List Byte) :=
  decodeQuanta (s.filter fun c => !(c == '\n' || c == '\r'))

/-! ## Cluster credentials -/

deriving instance DecidableEq for Except

/-- `corev1.Secret`, reduced to its `Data map[string][]byte`. -/
structure Secret where
  Data : List (String × GoString)
deriving DecidableEq, Repr

/-- `ClusterConfig`. -/
structure ClusterConfig where
  Server : GoString
  BearerToken : GoString
  CAData : List Byte
  IsInCluster : Bool
deriving DecidableEq, Repr

/-- `ClusterCredentialManager`. `clientset namespace selector` is the outcome of
`clientset.CoreV1().Secrets(namespace).List(ctx, ListOptions{LabelSelector})`. -/
structure ClusterCredentialManager where
  clientset : GoString → GoString → Except GoString (List Secret)
  argocdNamespace : GoString

/-- `matchesClusterName`. -/
def matchesClusterName (secret : Secret) (clusterName : GoString) : Bool :=
  match secret.Data.lookup "name" with
  | none => false
  | some nameBytes => nameBytes == clusterName

/-- `matchesClusterURL`. -/
def matchesClusterURL (secret : Secret) (clusterURL : GoString) : Bool :=
  match secret.Data.lookup "server" with
  | none => false
  | some serverBytes =>
    let server := TrimSuffix serverBytes "/".toList
    let clusterURL := TrimSuffix clusterURL "/".toList
    server == clusterURL

/-- `parseClusterSecret`. -/
def parseClusterSecret (secret : Secret) : Except GoString ClusterConfig :=
  match secret.Data.lookup "server" with
  | none => .error "cluster secret missing 'server' field".toList
  | some server =>
    let config : ClusterConfig :=
      { Server := server, BearerToken := [], CAData := [], IsInCluster := false }
    let config : ClusterConfig :=
      match secret.Data.lookup "config" with
      | some tokenStr =>
        if Contains tokenStr "bearerToken".toList then
          match Split tokenStr "\"bearerToken\":\"".toList with
          | _ :: p1 :: _ =>
            match Split p1 "\"".toList with
            | t0 :: _ => { config with BearerToken := t0 }
            | [] => config
          | _ => config
        else config
      | none => config
    let config : ClusterConfig :=
      if config.BearerToken = [] then
        match secret.Data.lookup "token" with
        | some token => { config with BearerToken := token }
        | none => config
      else config
    let config : ClusterConfig :=
      match secret.Data.lookup "config" with
      | some caStr =>
        if Contains caStr "tlsClientConfig".toList && Contains caStr "caData".toList then
          match Split caStr "\"caData\":\"".toList with
          | _ :: p1 :: _ =>
            match Split p1 "\"".toList with
            | c0 :: _ =>
              match DecodeString c0 with
              | some decoded => { config with CAData := decoded }
              | none => config
            | [] => config
          | _ => config
        else config
      | none => config
    if config.BearerToken = [] then
      .error "cluster secret missing authentication credentials".toList
    else .ok config

/-- The `for _, secret := range secrets.Items` loop of `GetClusterConfig`:
`some r` when the loop returns `r`, `none` when it runs to the end. -/
def rangeSecrets (clusterURL clusterName : GoString) :
    List Secret → Option (Except GoString ClusterConfig)
  | [] => none
  | secret :: items =>
    if clusterURL ≠ [] && matchesClusterURL secret clusterURL then
      some (parseClusterSecret secret)
    else if clusterName ≠ [] && matchesClusterName secret clusterName then
      some (parseClusterSecret secret)
    else rangeSecrets clusterURL clusterName items

/-- What a call of `GetClusterConfig` gives: its return value and the secret
listings it asked the API server for, as (namespace, label selector). -/
structure Resolution where
  result : Except GoString ClusterConfig
  lookups : List (GoString × GoString)

/-- `GetClusterConfig`. -/
def GetClusterConfig (m : ClusterCredentialManager) (clusterURL clusterName : GoString) :
    Resolution :=
  if clusterURL = [] ∧ clusterName = [] then
    { result := .ok { Server := [], BearerToken := [], CAData := [], IsInCluster := true },
      lookups := [] }
  else if clusterURL = "https://kubernetes.default.svc".toList then
    { result := .ok { Server := [], BearerToken := [], CAData := [], IsInCluster := true },
      lookups := [] }
  else
    let selector := "argocd.argoproj.io/secret-type=cluster".toList
    let lookups := [(m.argocdNamespace, selector)]
    match m.clientset m.argocdNamespace selector with
    | .error err =>
      { result := .error ("failed to list cluster secrets: ".toList ++ err), lookups := lookups }
    | .ok items =>
      match rangeSecrets clusterURL clusterName items with
      | some r => { result := r, lookups := lookups }
      | none =>
        let identifier := if clusterURL = [] then clusterName else clusterURL
        { result := .error ("cluster not found: ".toList ++ identifier), lookups := lookups }

/-! ## Filesystem and external process -/

/-- A cleaned absolute path, as its elements below the root. -/
abbrev Path := List GoString

/-- What a path names. -/
inductive Node where
  | dir
  | file (content : GoString) (perm : Nat)
deriving DecidableEq, Repr

/-- The filesystem state: the paths that exist and what each one is. -/
abbrev FS := List (Path × Node)

/-- Whether `p` has an entry below it. -/
def FS.hasChild (fs : FS) (p : Path) : Bool :=
  fs.any fun e => e.1 ≠ [] && e.1.dropLast == p

/-- Whether `p` is an existing directory (the root always is). -/
def FS.isDir (fs : FS) (p : Path) : Bool :=
  p == [] || fs.lookup p == some Node.dir

/-- Whether `p` exists. -/
def FS.pathExists (fs : FS) (p : Path) : Bool :=
  p == [] || (fs.lookup p).isSome

/-- `os.Remove(p)`: unlinks a file or removes an empty directory; on a missing
path or a directory with entries it fails and changes nothing. -/
def osRemove (fs : FS) (p : Path) : Except GoString FS :=
  match fs.lookup p with
  | none => .error "no such file or directory".toList
  | some (Node.file _ _) => .ok (fs.filter fun e => e.1 ≠ p)
  | some Node.dir =>
    if fs.hasChild p then .error "directory not empty".toList
    else .ok (fs.filter fun e => e.1 ≠ p)

/-- `os.WriteFile(p, data, perm)`: needs the parent directory, and `p` not to be
a directory. -/
def osWriteFile (fs : FS) (p : Path) (data : GoString) (perm : Nat) : Except GoString FS :=
  if p = [] ∨ !fs.isDir p.dropLast ∨ fs.isDir p then
    .error "open failed".toList
  else .ok ((p, Node.file data perm) :: fs.filter fun e => e.1 ≠ p)

/-- `os.MkdirAll(p, perm)`: creates `p` and the missing directories above it;
fails when one of them exists as a file. -/
def osMkdirAll (fs : FS) : Path → Except GoString FS
  | [] => .ok fs
  | p =>
    let ancestors := (List.range p.length).map fun i => p.take (i + 1)
    if ancestors.any fun q => fs.pathExists q && !fs.isDir q then
      .error "not a directory".toList
    else .ok (((ancestors.filter fun q => !fs.pathExists q).map fun q => (q, Node.dir)) ++ fs)

/-- The text of a path. -/
def Path.str (p : Path) : GoString :=
  if p = [] then "/".toList else (p.map fun e => '/' :: e).flatten

/-- `filepath.Base(path)`. -/
def Base (path : GoString) : GoString :=
  if path = [] then ".".toList
  else
    let path := (path.reverse.dropWhile (· = '/')).reverse
    let path := (path.reverse.takeWhile (· ≠ '/')).reverse
    if path = [] then "/".toList else path

/-- One step of `path.Join` on a cleaned directory: add an element that has no
inner slash (`.`, `/` and the empty element add nothing, `..` goes up). -/
def joinElem (dir : Path) (elem : GoString) : Path :=
  if elem = [] ∨ elem = ".".toList ∨ elem = "/".toList then dir
  else if elem = "..".toList then dir.dropLast
  else dir ++ [elem]

/-- `filepath.Dir(p)` of a cleaned absolute path. -/
def Dir (p : Path) : Path := p.dropLast

/-- One run of the `kubectl` binary: its arguments and the `KUBECONFIG` it was
given (`none`: the ambient environment, the in-cluster identity). -/
structure KubectlCall where
  args : List GoString
  kubeconfig : Option Path
deriving DecidableEq, Repr

/-- What `cmd.CombinedOutput()` gives for one run: the filesystem it leaves,
the combined output, and the error when the run failed. -/
abbrev Kubectl := KubectlCall → FS → FS × GoString × Option GoString

/-- The process state: the filesystem and the `kubectl` runs made so far. -/
structure World where
  fs : FS
  calls : List KubectlCall
deriving DecidableEq, Repr

/-- The process-wide values the handlers read: `os.TempDir()`, the variable
`tmpFilePath` set in `init`, the variable `credManager` (`none` when
`NewClusterCredentialManager` failed), and the `kubectl` binary. -/
structure Env where
  TempDir : Path
  tmpFilePath : Path
  credManager : Option ClusterCredentialManager
  kubectl : Kubectl

/-- The text that `GenerateKubeconfigFile` builds in `kubeconfigContent`. -/
def kubeconfigContent (config : ClusterConfig) : GoString :=
  let kubeconfigContent : GoString :=
    "apiVersion: v1\nkind: Config\nclusters:\n- cluster:\n    server: ".toList ++
      config.Server ++ "\n".toList
  let kubeconfigContent : GoString :=
    if config.CAData.length > 0 then
      kubeconfigContent ++ ("    certificate-authority-data: ".toList ++
        EncodeToString config.CAData ++ "\n".toList)
    else kubeconfigContent ++ "    insecure-skip-tls-verify: true\n".toList
  kubeconfigContent ++
    ("  name: target-cluster\ncontexts:\n- context:\n    cluster: target-cluster\n    user: target-user\n  name: target-context\ncurrent-context: target-context\nusers:\n- name: target-user\n  user:\n    token: ".toList
      ++ config.BearerToken ++ "\n".toList)

/-- `GenerateKubeconfigFile`; `uuid` is the value of `uuid.New().String()`.
Gives the file name (`none` for the empty name) and the filesystem. -/
def GenerateKubeconfigFile (env : Env) (uuid : GoString) (config : ClusterConfig) (fs : FS) :
    Except GoString (Option Path) × FS :=
  if config.IsInCluster then (.ok none, fs)
  else
    let tmpFile := joinElem env.TempDir ("kubeconfig-".toList ++ uuid ++ ".yaml".toList)
    match osWriteFile fs tmpFile (kubeconfigContent config) 0o600 with
    | .error err => (.error ("failed to write kubeconfig: ".toList ++ err), fs)
    | .ok fs1 => (.ok (some tmpFile), fs1)

/-- `executeKubectl`; `uuid` is drawn by `GenerateKubeconfigFile`. -/
def executeKubectl (env : Env) (uuid : GoString) (clusterConfig : Option ClusterConfig)
    (args : List GoString) (w : World) : (GoString × Option GoString) × World :=
  let ambient : (GoString × Option GoString) × World :=
    let call : KubectlCall := { args := args, kubeconfig := none }
    let (fs1, out, err) := env.kubectl call w.fs
    ((out, err), { fs := fs1, calls := w.calls ++ [call] })
  match clusterConfig with
  | none => ambient
  | some config =>
    if config.IsInCluster then ambient
    else
      match GenerateKubeconfigFile env uuid config w.fs with
      | (.error err, fs1) =>
        (([], some ("failed to generate kubeconfig: ".toList ++ err)), { w with fs := fs1 })
      | (.ok kubeconfigFile, fs1) =>
        let call : KubectlCall := { args := args, kubeconfig := kubeconfigFile }
        let (fs2, out, err) := env.kubectl call fs1
        let fs3 :=
          match kubeconfigFile with
          | none => fs2
          | some f =>
            match osRemove fs2 f with
            | .ok fs => fs
            | .error _ => fs2
        ((out, err), { fs := fs3, calls := w.calls ++ [call] })

/-! ## The HTTP handlers -/

/-- The query parameters of a `/files` request and, for `POST`, the content of
the form file `file` when the request carries one. -/
structure Request where
  namespace_ : GoString
  pod : GoString
  container : GoString
  path : GoString
  clusterUrl : GoString
  clusterName : GoString
  file : Option GoString
deriving DecidableEq, Repr

/-- The body written to the response. -/
inductive Body where
  | text (s : GoString)
  | json (fields : List (String × GoString))
  | file (content : GoString)
deriving DecidableEq, Repr

/-- The response of a handler. -/
structure Response where
  status : Nat
  body : Body
deriving DecidableEq, Repr

/-- The credential step both handlers start with: `none` for a nil
`credManager`, else the outcome of `GetClusterConfig`. -/
def resolveCluster (env : Env) (req : Request) : Option (Except GoString ClusterConfig) :=
  match env.credManager with
  | none => none
  | some m => some (GetClusterConfig m req.clusterUrl req.clusterName).result

/-- The 404 response of a failed credential step. -/
def clusterConfigError (err : GoString) : Response :=
  { status := 404,
    body := Body.json [("error", "Failed to get cluster config: ".toList ++ err),
      ("hint", "Ensure the cluster is registered in ArgoCD".toList)] }

/-- The 500 response of a failed `kubectl cp`. -/
def kubectlError (err out : GoString) : Response :=
  { status := 500,
    body := Body.json [("error", "kubectl cp exec error: ".toList ++ err), ("output", out)] }

/-- The deferred `os.Remove(filepath.Dir(tmpFilePath))`; its error is dropped. -/
def deferredRemove (fs : FS) (staged : Path) : FS :=
  match osRemove fs (Dir staged) with
  | .ok fs1 => fs1
  | .error _ => fs

/-- `c.File(p)`: the file when `p` names one, the 404 page otherwise. -/
def serveFile (fs : FS) (p : Path) : Response :=
  match fs.lookup p with
  | some (Node.file content _) => { status := 200, body := Body.file content }
  | _ => { status := 404, body := Body.text "404 page not found".toList }

/-- The staged file name, `path.Join(os.TempDir(), tmpFilePath, uuid, filepath.Base(filePath))`. -/
def stagedPath (env : Env) (uuid filePath : GoString) : Path :=
  joinElem (joinElem (env.TempDir ++ env.tmpFilePath) uuid) (Base filePath)

/-- The handler of `GET /files`; `uuid` names the staging directory and
`uuidK` the kubeconfig file. -/
def getFiles (env : Env) (uuid uuidK : GoString) (req : Request) (w : World) :
    Response × World :=
  let proceed (clusterConfig : Option ClusterConfig) : Response × World :=
    let tmpFilePath := stagedPath env uuid req.path
    let remote := req.namespace_ ++ "/".toList ++ req.pod ++ ":".toList ++ req.path
    match executeKubectl env uuidK clusterConfig
        ["cp".toList, remote, tmpFilePath.str, "-c".toList, req.container] w with
    | ((b, some err), w1) =>
      (kubectlError err b, { w1 with fs := deferredRemove w1.fs tmpFilePath })
    | ((_, none), w1) =>
      (serveFile w1.fs tmpFilePath, { w1 with fs := deferredRemove w1.fs tmpFilePath })
  match resolveCluster env req with
  | some (.error err) => (clusterConfigError err, w)
  | some (.ok clusterConfig) => proceed (some clusterConfig)
  | none => proceed none

/-- `c.SaveUploadedFile(file, dst)`: creates the directory of `dst` and writes
the uploaded content there. -/
def SaveUploadedFile (fs : FS) (content : GoString) (dst : Path) : Except GoString FS :=
  match osMkdirAll fs (Dir dst) with
  | .error err => .error err
  | .ok fs1 => osWriteFile fs1 dst content 0o666

/-- The handler of `POST /files`. -/
def postFiles (env : Env) (uuid uuidK : GoString) (req : Request) (w : World) :
    Response × World :=
  let proceed (clusterConfig : Option ClusterConfig) : Response × World :=
    match req.file with
    | none =>
      ({ status := 400,
         body := Body.json [("error", "Failed to get file: http: no such file".toList)] }, w)
    | some file =>
      let tmpFilePath := stagedPath env uuid req.path
      match SaveUploadedFile w.fs file tmpFilePath with
      | .error err =>
        ({ status := 500, body := Body.json [("error", "Failed to save file: ".toList ++ err)] }, w)
      | .ok fs1 =>
        let remote := req.namespace_ ++ "/".toList ++ req.pod ++ ":".toList ++ req.path
        match executeKubectl env uuidK clusterConfig
            ["cp".toList, tmpFilePath.str, remote, "-c".toList, req.container]
            { w with fs := fs1 } with
        | ((b, some err), w1) =>
          (kubectlError err b, { w1 with fs := deferredRemove w1.fs tmpFilePath })
        | ((_, none), w1) =>
          ({ status := 201, body := Body.text "Uploaded".toList },
            { w1 with fs := deferredRemove w1.fs tmpFilePath })
  match resolveCluster env req with
  | some (.error err) => (clusterConfigError err, w)
  | some (.ok clusterConfig) => proceed (some clusterConfig)
  | none => proceed none

/-! ## The specification's vocabulary -/

/-- The text of `s` between the first occurrence of `marker` and the next `"`
(the end of `s` when no `"` follows); `none` when `s` has no `marker`. -/
def valueAfter (marker s : GoString) : Option GoString :=
  (Index s marker).map fun m => (s.drop (m + marker.length)).takeWhile (· ≠ '"')

/-- The marker `"bearerToken":"`. -/
def bearerMarker : GoString := "\"bearerToken\":\"".toList

/-- The marker `"caData":"`. -/
def caMarker : GoString := "\"caData\":\"".toList

/-- The bearer token embedded in the `config` field of a record, if any. -/
def embeddedBearer (secret : Secret) : Option GoString :=
  (secret.Data.lookup "config").bind (valueAfter bearerMarker)

/-- The lines of a text, cut at `\n`. -/
def textLines : GoString → List GoString
  | [] => [[]]
  | c :: cs =>
    if c = '\n' then [] :: textLines cs
    else
      match textLines cs with
      | l :: ls => (c :: l) :: ls
      | [] => [[c]]

/-- The line sets the key `key`: after its indentation it starts with `key`. -/
def hasKey (key line : GoString) : Bool :=
  key.isPrefixOf (line.dropWhile (· = ' '))

/-- The piece of `s` before the first `sep`, all of `s` when it has none. -/
def firstPiece (sep s : GoString) : GoString :=
  match Index s sep with
  | none => s
  | some m => s.take m

/-- The bearer token a record resolves to, in the priority order of the
decoding: the embedded value when it is not empty, else the `token` field,
else nothing. -/
def bearerOf (secret : Secret) : GoString :=
  match embeddedBearer secret with
  | some (c :: v) => c :: v
  | _ => (secret.Data.lookup "token").getD []

/-- The CA bytes a record resolves to: the decoding of the value after the
marker `"caData":"` when `config` holds the words `tlsClientConfig` and `caData`
and the value is valid base64, else nothing. -/
def caDataOf (secret : Secret) : List Byte :=
  match secret.Data.lookup "config" with
  | none => []
  | some c =>
    if Contains c "tlsClientConfig".toList && Contains c "caData".toList then
      match valueAfter caMarker c with
      | some v => (DecodeString v).getD []
      | none => []
    else []

/-- The TLS line of the kubeconfig text, without its line break. -/
def tlsLine (config : ClusterConfig) : GoString :=
  if config.CAData.length > 0 then
    "    certificate-authority-data: ".toList ++ EncodeToString config.CAData
  else "    insecure-skip-tls-verify: true".toList

/-- The label selector of cluster credential records. -/
def clusterSelector : GoString := "argocd.argoproj.io/secret-type=cluster".toList

/-- A manager whose secret listing returns `items`. -/
def managerOf (items : List Secret) : ClusterCredentialManager :=
  { clientset := fun _ _ => .ok items, argocdNamespace := "argocd".toList }

/-- A manager whose secret listing fails. -/
def failingManager : ClusterCredentialManager :=
  { clientset := fun _ _ => .error "connection refused".toList,
    argocdNamespace := "argocd".toList }

/-! ## Concrete records and queries -/

/-- The URL of the local API service. -/
def localURL : GoString := "https://kubernetes.default.svc".toList

/-- A record with a `server` and nothing to authenticate with. -/
def recordNoToken : Secret :=
  { Data := [("server", "https://a.example/".toList)] }

/-- A record with a `server` ending in a slash and a `token`. -/
def recordA : Secret :=
  { Data := [("server", "https://a.example/".toList), ("token", "t0k3n".toList)] }

/-- A `config` text with the bearer marker and an empty value. -/
def configEmptyBearer : GoString := "\x7b\"bearerToken\":\"\"\x7d".toList

/-- A `config` text with the bearer token `abc123`. -/
def configBearer : GoString := "\x7b\"bearerToken\":\"abc123\"\x7d".toList

/-- A `config` text that names `tlsClientConfig` without quotes around it. -/
def configUnquotedTLS : GoString :=
  "\x7btlsClientConfig:\x7b\"caData\":\"QUJD\"\x7d\x7d".toList

/-- A `config` text whose CA data is not base64. -/
def configBadCA : GoString :=
  "\x7b\"bearerToken\":\"abc123\",\"tlsClientConfig\":\x7b\"caData\":\"!!\"\x7d\x7d".toList

/-- A record whose `config` has the bearer marker with an empty value. -/
def recordEmptyEmbedded : Secret :=
  { Data := [("server", "https://b.example".toList),
      ("config", configEmptyBearer)] }

/-- The same with a top-level `token` next to it. -/
def recordEmptyEmbeddedWithToken : Secret :=
  { Data := [("server", "https://b.example".toList), ("token", "tok".toList),
      ("config", configEmptyBearer)] }

/-- A record whose only token is the one embedded in `config`. -/
def recordEmbedded : Secret :=
  { Data := [("server", "https://c.example".toList),
      ("config", configBearer)] }

/-- A record whose `config` names `tlsClientConfig` without quotes around it. -/
def recordUnquotedTLS : Secret :=
  { Data := [("server", "https://d.example".toList), ("token", "tok".toList),
      ("config", configUnquotedTLS)] }

/-- A record whose embedded CA data is not base64. -/
def recordBadCA : Secret :=
  { Data := [("server", "https://e.example".toList),
      ("config", configBadCA)] }

/-- A record with a name, a token and a `server` field that is present and empty. -/
def recordEmptyServer : Secret :=
  { Data := [("name", "x".toList), ("server", []), ("token", "t".toList)] }

/-- A descriptor whose token carries a line break and a TLS line of its own. -/
def configInjectedToken : ClusterConfig :=
  { Server := "https://a.example".toList,
    BearerToken := "t\n    insecure-skip-tls-verify: true".toList,
    CAData := [65], IsInCluster := false }

/-- A descriptor with CA bytes `ABC`. -/
def configWithCA : ClusterConfig :=
  { Server := "https://a.example".toList, BearerToken := "abc123".toList,
    CAData := [65, 66, 67], IsInCluster := false }

/-- The name drawn for the staging directory. -/
def stagingUUID : GoString := "1b4e28ba-2fa1-11d2-883f-0016d3cca427".toList

/-- The name drawn for the kubeconfig file. -/
def kubeconfigUUID : GoString := "6fa459ea-ee8a-3ca4-894e-db77e160355e".toList

/-- The staging directory `<temp>/<staging-root>/<uuid>` of the request. -/
def stagingDir : Path :=
  ["tmp".toList, "argocd-extension-pod-files".toList, stagingUUID]

/-- A `kubectl cp` from the pod that succeeds: it creates the directory of the
destination `<staging directory>/app.log` and writes the file. -/
def kubectlCopiesFromPod : Kubectl := fun _ fs =>
  match osMkdirAll fs stagingDir with
  | .error err => (fs, err, some "exit status 1".toList)
  | .ok fs1 =>
    match osWriteFile fs1 (stagingDir ++ ["app.log".toList]) "log line".toList 0o644 with
    | .error err => (fs1, err, some "exit status 1".toList)
    | .ok fs2 => (fs2, [], none)

/-- A `kubectl cp` into the pod that succeeds; it leaves the local files alone. -/
def kubectlCopiesToPod : Kubectl := fun _ fs => (fs, [], none)

/-- A `kubectl cp` that fails without touching the local files. -/
def kubectlFails : Kubectl := fun _ fs =>
  (fs, "error: pods \"web-0\" not found".toList, some "exit status 1".toList)

/-- The process values: temp directory `/tmp`, the default staging root. -/
def envWith (credManager : Option ClusterCredentialManager) (kubectl : Kubectl) : Env :=
  { TempDir := ["tmp".toList], tmpFilePath := ["argocd-extension-pod-files".toList],
    credManager := credManager, kubectl := kubectl }

/-- The state before the request: `/tmp` exists, no `kubectl` run was made. -/
def initialWorld : World :=
  { fs := [(["tmp".toList], Node.dir)], calls := [] }

/-- A download of `/var/log/app.log` that names no cluster. -/
def localDownload : Request :=
  { namespace_ := "default".toList, pod := "web-0".toList, container := [],
    path := "/var/log/app.log".toList, clusterUrl := [], clusterName := [], file := none }

/-- An upload to `/var/log/app.log` that names no cluster. -/
def localUpload : Request :=
  { localDownload with file := some "payload".toList }

/-- A download that names a remote cluster. -/
def remoteDownload : Request :=
  { localDownload with clusterUrl := "https://remote.example".toList }

/-- An upload that names a remote cluster. -/
def remoteUpload : Request :=
  { localUpload with clusterName := "production".toList }

/-! ## Lemmas on strings and on the decoding -/

theorem Index_some_eq {s sub : GoString} {m : Nat} (h : Index s sub = some m) :
    s = s.take m ++ sub ++ s.drop (m + sub.length) := by
  induction s generalizing m with
  | nil =>
    unfold Index at h
    split at h
    · next hs => cases h; simp [hs]
    · cases h
  | cons c cs ih =>
    unfold Index at h
    split at h
    · next hp =>
      cases h
      obtain ⟨t, ht⟩ := List.isPrefixOf_iff_prefix.mp hp
      rw [← ht]; simp
    · next hp =>
      cases hi : Index cs sub with
      | none => simp [hi] at h
      | some k =>
        simp [hi] at h
        subst h
        have := ih hi
        have e : k + 1 + sub.length = (k + sub.length) + 1 := by omega
        rw [e]
        simp only [List.take_succ_cons, List.drop_succ_cons, List.cons_append]
        exact congrArg _ this

theorem Index_none_iff {s sub : GoString} : Index s sub = none ↔ ¬ sub <:+: s := by
  induction s with
  | nil =>
    unfold Index
    by_cases hs : sub = []
    · simp [hs]
    · simp [hs]
  | cons c cs ih =>
    unfold Index
    by_cases hp : sub.isPrefixOf (c :: cs) = true
    · simp only [hp, if_true]
      have := List.isPrefixOf_iff_prefix.mp hp
      simp [List.infix_cons_iff, this]
    · simp only [hp]
      have hnp : ¬ sub <+: c :: cs := fun h => hp (List.isPrefixOf_iff_prefix.mpr h)
      simp [List.infix_cons_iff, hnp, ih]

theorem Contains_iff {s sub : GoString} : Contains s sub = true ↔ sub <:+: s := by
  unfold Contains
  rw [Option.isSome_iff_ne_none, Ne, Index_none_iff, not_not]

theorem Index_lt {s sub : GoString} {m : Nat} (h : Index s sub = some m) :
    m + sub.length ≤ s.length := by
  induction s generalizing m with
  | nil =>
    unfold Index at h
    split at h
    · next hs => cases h; simp [hs]
    · cases h
  | cons c cs ih =>
    unfold Index at h
    split at h
    · next hp =>
      cases h
      have := (List.isPrefixOf_iff_prefix.mp hp).length_le
      omega
    · cases hi : Index cs sub with
      | none => simp [hi] at h
      | some k =>
        simp [hi] at h
        subst h
        have := ih hi
        simp only [List.length_cons]
        omega

theorem splitLoop_head (sep : GoString) (hsep : sep ≠ []) (fuel : Nat) (s : GoString)
    (hf : s.length ≤ fuel) : ∃ tl, splitLoop sep fuel s = firstPiece sep s :: tl := by
  cases fuel with
  | zero =>
    have hs : s = [] := List.length_eq_zero.mp (Nat.le_zero.mp hf)
    subst hs
    refine ⟨[], ?_⟩
    simp [splitLoop, firstPiece, Index, hsep]
  | succ n =>
    unfold splitLoop firstPiece
    cases Index s sep with
    | none => exact ⟨[], rfl⟩
    | some m => exact ⟨_, rfl⟩

/-- The loop of `Split` has fuel to spare: any two bounds from `s.length` up
give the same pieces. -/
theorem splitLoop_fuel (sep : GoString) (hsep : sep ≠ []) (f1 f2 : Nat) (s : GoString)
    (h1 : s.length ≤ f1) (h2 : s.length ≤ f2) : splitLoop sep f1 s = splitLoop sep f2 s := by
  have hpos : 0 < sep.length := List.length_pos.mpr hsep
  induction f1 generalizing f2 s with
  | zero =>
    have hs : s = [] := List.length_eq_zero.mp (Nat.le_zero.mp h1)
    subst hs
    cases f2 with
    | zero => rfl
    | succ n => simp [splitLoop, Index, hsep]
  | succ n ih =>
    cases f2 with
    | zero =>
      have hs : s = [] := List.length_eq_zero.mp (Nat.le_zero.mp h2)
      subst hs
      simp [splitLoop, Index, hsep]
    | succ k =>
      unfold splitLoop
      cases hi : Index s sep with
      | none => rfl
      | some m =>
        have hl := Index_lt hi
        simp only
        rw [ih k (s.drop (m + sep.length)) (by simp; omega) (by simp; omega)]

theorem Split_head (s sep : GoString) (hsep : sep ≠ []) :
    ∃ tl, Split s sep = firstPiece sep s :: tl :=
  splitLoop_head sep hsep s.length s (Nat.le_refl _)

theorem Split_none {s sep : GoString} (h : Index s sep = none) : Split s sep = [s] := by
  unfold Split
  cases s.length with
  | zero => rfl
  | succ n => simp [splitLoop, h]

theorem Split_some {s sep : GoString} {m : Nat} (hsep : sep ≠ []) (h : Index s sep = some m) :
    ∃ tl, Split s sep = s.take m :: firstPiece sep (s.drop (m + sep.length)) :: tl := by
  have hl := Index_lt h
  have hpos : 0 < sep.length := List.length_pos.mpr hsep
  unfold Split
  cases hn : s.length with
  | zero => omega
  | succ n =>
    simp only [splitLoop, h]
    obtain ⟨tl, htl⟩ := splitLoop_head sep hsep n (s.drop (m + sep.length))
      (by simp; omega)
    exact ⟨tl, by rw [htl]⟩

theorem firstPiece_singleton (q : Char) (s : GoString) :
    firstPiece [q] s = s.takeWhile (· ≠ q) := by
  induction s with
  | nil => simp [firstPiece, Index]
  | cons c cs ih =>
    unfold firstPiece at ih ⊢
    unfold Index
    by_cases hc : c = q
    · subst hc
      simp [List.isPrefixOf]
    · have hp : List.isPrefixOf [q] (c :: cs) = false := by
        simp [List.isPrefixOf, Ne.symm hc]
      simp only [hp]
      cases hi : Index cs [q] with
      | none => simp [hi] at ih ⊢; simp [List.takeWhile_cons, hc, ← ih]
      | some k => simp [hi] at ih ⊢; simp [List.takeWhile_cons, hc, ← ih]

theorem takeWhile_append_stop {p : Char → Bool} (a b : GoString) (q : Char) (hq : p q = false) :
    (a ++ q :: b).takeWhile p = a.takeWhile p := by
  induction a with
  | nil => simp [List.takeWhile_cons, hq]
  | cons c cs ih =>
    simp only [List.cons_append, List.takeWhile_cons]
    split
    · rw [ih]
    · rfl

theorem takeWhile_firstPiece (q : Char) (mtl s : GoString) :
    (firstPiece (q :: mtl) s).takeWhile (· ≠ q) = s.takeWhile (· ≠ q) := by
  unfold firstPiece
  cases hi : Index s (q :: mtl) with
  | none => rfl
  | some m =>
    have h := Index_some_eq hi
    simp only
    conv => rhs; rw [h]
    simp only [List.cons_append, List.append_assoc]
    rw [takeWhile_append_stop]
    simp

/-- The two nested `strings.Split` calls of `parseClusterSecret` pick the value
after the marker. -/
theorem split_extract {α : Type} (marker_tl s : GoString) (f : GoString → α) (d : α) :
    (match Split s ('"' :: marker_tl) with
      | _ :: p1 :: _ =>
        match Split p1 "\"".toList with
        | t0 :: _ => f t0
        | [] => d
      | _ => d) =
    match valueAfter ('"' :: marker_tl) s with
    | some v => f v
    | none => d := by
  unfold valueAfter
  cases hi : Index s ('"' :: marker_tl) with
  | none => simp [Split_none hi]
  | some m =>
    obtain ⟨tl, htl⟩ := Split_some (by simp) hi
    obtain ⟨tl2, htl2⟩ := Split_head
      (firstPiece ('"' :: marker_tl) (s.drop (m + ('"' :: marker_tl).length))) ['"'] (by simp)
    have e : "\"".toList = ['"'] := rfl
    rw [htl]
    simp only [e, htl2, Option.map_some']
    rw [firstPiece_singleton, takeWhile_firstPiece]

theorem valueAfter_bearer_none {c : GoString} (h : Contains c "bearerToken".toList = false) :
    valueAfter bearerMarker c = none := by
  unfold valueAfter
  cases hi : Index c bearerMarker with
  | none => rfl
  | some m =>
    exfalso
    have h1 : bearerMarker <:+: c := by
      rw [← Contains_iff]; unfold Contains; rw [hi]; rfl
    have h2 : "bearerToken".toList <:+: bearerMarker := by decide
    have := Contains_iff.mpr (h2.trans h1)
    rw [h] at this
    cases this

theorem parseClusterSecret_eq (secret : Secret) :
    parseClusterSecret secret =
      match secret.Data.lookup "server" with
      | none => .error "cluster secret missing 'server' field".toList
      | some server =>
        if bearerOf secret = [] then
          .error "cluster secret missing authentication credentials".toList
        else .ok { Server := server, BearerToken := bearerOf secret,
                   CAData := caDataOf secret, IsInCluster := false } := by
  unfold parseClusterSecret bearerOf caDataOf embeddedBearer
  cases hs : secret.Data.lookup "server" with
  | none => rfl
  | some server =>
    cases hc : secret.Data.lookup "config" with
    | none =>
      cases ht : secret.Data.lookup "token" with
      | none => simp
      | some t => simp
    | some c =>
      have e1 : "\"bearerToken\":\"".toList = '"' :: "bearerToken\":\"".toList := rfl
      have e2 : "\"caData\":\"".toList = '"' :: "caData\":\"".toList := rfl
      have e3 : bearerMarker = '"' :: "bearerToken\":\"".toList := rfl
      have e4 : caMarker = '"' :: "caData\":\"".toList := rfl
      simp only [e1, e2, split_extract, Option.bind_some]
      rw [← e3, ← e4]
      have hbn := @valueAfter_bearer_none c
      have hd : ∀ v, DecodeString v = none ∨ ∃ d, DecodeString v = some d := by
        intro v; cases DecodeString v <;> simp
      cases hb : Contains c "bearerToken".toList <;>
      rcases hv : valueAfter bearerMarker c with _ | (_ | ⟨x, v⟩) <;>
      cases ht : secret.Data.lookup "token" <;>
      cases hg : (Contains c "tlsClientConfig".toList && Contains c "caData".toList) <;>
      rcases hca : valueAfter caMarker c with _ | v2 <;>
      simp_all <;>
      (rcases hd v2 with h | ⟨d, h⟩ <;> simp [h])

theorem matchesClusterURL_iff (secret : Secret) (clusterURL : GoString) :
    matchesClusterURL secret clusterURL = true ↔
      ∃ srv, secret.Data.lookup "server" = some srv ∧
        TrimSuffix srv "/".toList = TrimSuffix clusterURL "/".toList := by
  unfold matchesClusterURL
  cases secret.Data.lookup "server" with
  | none => simp
  | some srv => simp

theorem matchesClusterName_iff (secret : Secret) (clusterName : GoString) :
    matchesClusterName secret clusterName = true ↔
      secret.Data.lookup "name" = some clusterName := by
  unfold matchesClusterName
  cases secret.Data.lookup "name" with
  | none => simp
  | some n => simp

theorem rangeSecrets_none {clusterURL clusterName : GoString} {items : List Secret}
    (hurl : clusterURL ≠ [] → ∀ s ∈ items, matchesClusterURL s clusterURL = false)
    (hname : clusterName ≠ [] → ∀ s ∈ items, matchesClusterName s clusterName = false) :
    rangeSecrets clusterURL clusterName items = none := by
  induction items with
  | nil => rfl
  | cons s rest ih =>
    unfold rangeSecrets
    have h1 : ¬ ((clusterURL ≠ [] && matchesClusterURL s clusterURL) = true) := by
      intro h
      simp only [Bool.and_eq_true, decide_eq_true_eq] at h
      have := hurl h.1 s (List.mem_cons_self _ _)
      rw [h.2] at this
      cases this
    have h2 : ¬ ((clusterName ≠ [] && matchesClusterName s clusterName) = true) := by
      intro h
      simp only [Bool.and_eq_true, decide_eq_true_eq] at h
      have := hname h.1 s (List.mem_cons_self _ _)
      rw [h.2] at this
      cases this
    rw [if_neg h1, if_neg h2]
    exact ih (fun h s hs => hurl h s (List.mem_cons_of_mem _ hs))
      (fun h s hs => hname h s (List.mem_cons_of_mem _ hs))

theorem rangeSecrets_some {clusterURL clusterName : GoString} {items : List Secret}
    {r : Except GoString ClusterConfig} (h : rangeSecrets clusterURL clusterName items = some r) :
    ∃ s ∈ items, r = parseClusterSecret s ∧
      ((clusterURL ≠ [] ∧ matchesClusterURL s clusterURL = true) ∨
        (clusterName ≠ [] ∧ matchesClusterName s clusterName = true)) := by
  induction items with
  | nil => cases h
  | cons s rest ih =>
    unfold rangeSecrets at h
    split at h
    · next h1 =>
      simp only [Bool.and_eq_true, decide_eq_true_eq] at h1
      exact ⟨s, List.mem_cons_self _ _, (Option.some.inj h).symm, Or.inl h1⟩
    · split at h
      · next h2 =>
        simp only [Bool.and_eq_true, decide_eq_true_eq] at h2
        exact ⟨s, List.mem_cons_self _ _, (Option.some.inj h).symm, Or.inr h2⟩
      · obtain ⟨s', hs', hr, hm⟩ := ih h
        exact ⟨s', List.mem_cons_of_mem _ hs', hr, hm⟩

theorem rangeSecrets_isSome {clusterURL clusterName : GoString} {items : List Secret}
    {s : Secret} (hs : s ∈ items)
    (hm : (clusterURL ≠ [] ∧ matchesClusterURL s clusterURL = true) ∨
      (clusterName ≠ [] ∧ matchesClusterName s clusterName = true)) :
    ∃ r, rangeSecrets clusterURL clusterName items = some r := by
  induction items with
  | nil => cases hs
  | cons t rest ih =>
    unfold rangeSecrets
    split
    · exact ⟨_, rfl⟩
    · next h1 =>
      split
      · exact ⟨_, rfl⟩
      · next h2 =>
        rcases List.mem_cons.mp hs with e | e
        · subst e
          exfalso
          rcases hm with hm | hm
          · exact h1 (by simp [hm.1, hm.2])
          · exact h2 (by simp [hm.1, hm.2])
        · exact ih e

theorem GetClusterConfig_listed {m : ClusterCredentialManager} {items : List Secret}
    {clusterURL clusterName : GoString}
    (hq : ¬ ((clusterURL = [] ∧ clusterName = []) ∨
      clusterURL = "https://kubernetes.default.svc".toList))
    (hlist : m.clientset m.argocdNamespace clusterSelector = .ok items) :
    (GetClusterConfig m clusterURL clusterName).result =
      match rangeSecrets clusterURL clusterName items with
      | some r => r
      | none => .error ("cluster not found: ".toList ++
          (if clusterURL = [] then clusterName else clusterURL)) := by
  have h1 : ¬ (clusterURL = [] ∧ clusterName = []) := fun h => hq (Or.inl h)
  have h2 : ¬ clusterURL = "https://kubernetes.default.svc".toList := fun h => hq (Or.inr h)
  unfold GetClusterConfig
  rw [if_neg h1, if_neg h2]
  unfold clusterSelector at hlist
  simp only [hlist]
  cases rangeSecrets clusterURL clusterName items <;> rfl

theorem parseClusterSecret_ok {secret : Secret} {cfg : ClusterConfig}
    (h : parseClusterSecret secret = .ok cfg) :
    ∃ server, secret.Data.lookup "server" = some server ∧ bearerOf secret ≠ [] ∧
      cfg = { Server := server, BearerToken := bearerOf secret, CAData := caDataOf secret,
              IsInCluster := false } := by
  rw [parseClusterSecret_eq] at h
  cases hs : secret.Data.lookup "server" with
  | none => rw [hs] at h; cases h
  | some server =>
    rw [hs] at h
    simp only at h
    split at h
    · cases h
    · next hb => exact ⟨server, rfl, hb, (Except.ok.inj h).symm⟩

/-! ## Lemmas on base64 and on the kubeconfig text -/

theorem encodeChar_facts : ∀ n : Fin 64,
    decodeMap (encodeChar n.val) = some n.val ∧ encodeChar n.val ≠ '=' ∧
      encodeChar n.val ≠ '\n' ∧ encodeChar n.val ≠ '\r' := by
  decide

theorem decodeMap_encodeChar {n : Nat} (h : n < 64) : decodeMap (encodeChar n) = some n :=
  (encodeChar_facts ⟨n, h⟩).1

theorem encodeChar_ne_pad {n : Nat} (h : n < 64) : encodeChar n ≠ '=' :=
  (encodeChar_facts ⟨n, h⟩).2.1

theorem encodeChar_keep {n : Nat} (h : n < 64) :
    (!(encodeChar n == '\n' || encodeChar n == '\r')) = true := by
  have h1 := (encodeChar_facts ⟨n, h⟩).2.2.1
  have h2 := (encodeChar_facts ⟨n, h⟩).2.2.2
  simp at h1 h2 ⊢
  exact ⟨h1, h2⟩

theorem keep_pad : (!('=' == '\n' || '=' == '\r')) = true := by decide

theorem EncodeToString_keep (bs : List Byte) :
    ∀ c ∈ EncodeToString bs, (!(c == '\n' || c == '\r')) = true := by
  have h64 : ∀ n : Nat, n % 64 < 64 := fun n => Nat.mod_lt n (by decide)
  induction bs using EncodeToString.induct with
  | case1 => intro c hc; cases hc
  | case2 a =>
    intro c hc
    simp only [EncodeToString, List.mem_cons, List.mem_singleton, List.not_mem_nil, or_false] at hc
    rcases hc with h | h | h | h <;> subst h
    · exact encodeChar_keep (h64 _)
    · exact encodeChar_keep (h64 _)
    · exact keep_pad
    · exact keep_pad
  | case3 a b =>
    intro c hc
    simp only [EncodeToString, List.mem_cons, List.mem_singleton, List.not_mem_nil, or_false] at hc
    rcases hc with h | h | h | h <;> subst h
    · exact encodeChar_keep (h64 _)
    · exact encodeChar_keep (h64 _)
    · exact encodeChar_keep (h64 _)
    · exact keep_pad
  | case4 a b c rest ih =>
    intro x hx
    simp only [EncodeToString, List.mem_cons] at hx
    rcases hx with h | h | h | h | h
    · subst h; exact encodeChar_keep (h64 _)
    · subst h; exact encodeChar_keep (h64 _)
    · subst h; exact encodeChar_keep (h64 _)
    · subst h; exact encodeChar_keep (h64 _)
    · exact ih x h

theorem filter_EncodeToString (bs : List Byte) :
    (EncodeToString bs).filter (fun c => !(c == '\n' || c == '\r')) = EncodeToString bs :=
  List.filter_eq_self.mpr (EncodeToString_keep bs)

theorem decodeQuanta_EncodeToString (bs : List Byte) :
    decodeQuanta (EncodeToString bs) = some bs := by
  have h64 : ∀ n : Nat, n % 64 < 64 := fun n => Nat.mod_lt n (by decide)
  induction bs using EncodeToString.induct with
  | case1 => rfl
  | case2 a =>
    have ha := a.isLt
    simp only [EncodeToString, decodeQuanta, decodeMap_encodeChar (h64 _)]
    simp only [if_true, and_self]
    congr 2
    apply Fin.ext
    simp only [toByte]
    omega
  | case3 a b =>
    have ha := a.isLt
    have hb := b.isLt
    simp only [EncodeToString, decodeQuanta, decodeMap_encodeChar (h64 _)]
    simp only [if_true, if_neg (encodeChar_ne_pad (h64 _))]
    congr 2
    · apply Fin.ext
      simp only [toByte]
      omega
    · congr 1
      apply Fin.ext
      simp only [toByte]
      omega
  | case4 a b c rest ih =>
    have ha := a.isLt
    have hb := b.isLt
    have hc := c.isLt
    simp only [EncodeToString, decodeQuanta, decodeMap_encodeChar (h64 _)]
    simp only [if_neg (encodeChar_ne_pad (h64 _)), ih, Option.map_some']
    congr 2
    · apply Fin.ext
      simp only [toByte]
      omega
    · congr 1
      · apply Fin.ext
        simp only [toByte]
        omega
      · congr 1
        apply Fin.ext
        simp only [toByte]
        omega

/-- Decoding the standard encoding of a byte sequence gives the bytes back. -/
theorem DecodeString_EncodeToString (bs : List Byte) :
    DecodeString (EncodeToString bs) = some bs := by
  unfold DecodeString
  rw [filter_EncodeToString, decodeQuanta_EncodeToString]

theorem textLines_ne_nil (s : GoString) : textLines s ≠ [] := by
  induction s with
  | nil => simp [textLines]
  | cons c cs ih =>
    unfold textLines
    split
    · simp
    · split <;> simp

theorem textLines_line (l b : GoString) (hl : '\n' ∉ l) :
    textLines (l ++ '\n' :: b) = l :: textLines b := by
  induction l with
  | nil => simp [textLines]
  | cons c cs ih =>
    have hc : c ≠ '\n' := fun h => hl (by simp [h])
    have hcs : '\n' ∉ cs := fun h => hl (by simp [h])
    show textLines (c :: (cs ++ '\n' :: b)) = _
    rw [textLines, if_neg hc, ih hcs]

theorem textLines_last (l : GoString) (hl : '\n' ∉ l) : textLines l = [l] := by
  induction l with
  | nil => rfl
  | cons c cs ih =>
    have hc : c ≠ '\n' := fun h => hl (by simp [h])
    have hcs : '\n' ∉ cs := fun h => hl (by simp [h])
    simp only [textLines, if_neg hc, ih hcs]

theorem EncodeToString_no_newline (bs : List Byte) : '\n' ∉ EncodeToString bs := by
  intro h
  have := EncodeToString_keep bs _ h
  simp at this

theorem tlsLine_no_newline (config : ClusterConfig) : '\n' ∉ tlsLine config := by
  unfold tlsLine
  split
  · intro h
    rcases List.mem_append.mp h with h | h
    · revert h; decide
    · exact EncodeToString_no_newline _ h
  · decide

theorem kubeconfigContent_eq (config : ClusterConfig) :
    kubeconfigContent config =
      "apiVersion: v1".toList ++ '\n' :: ("kind: Config".toList ++ '\n' ::
      ("clusters:".toList ++ '\n' :: ("- cluster:".toList ++ '\n' ::
      (("    server: ".toList ++ config.Server) ++ '\n' :: (tlsLine config ++ '\n' ::
      ("  name: target-cluster".toList ++ '\n' :: ("contexts:".toList ++ '\n' ::
      ("- context:".toList ++ '\n' :: ("    cluster: target-cluster".toList ++ '\n' ::
      ("    user: target-user".toList ++ '\n' :: ("  name: target-context".toList ++ '\n' ::
      ("current-context: target-context".toList ++ '\n' :: ("users:".toList ++ '\n' ::
      ("- name: target-user".toList ++ '\n' :: ("  user:".toList ++ '\n' ::
      (("    token: ".toList ++ config.BearerToken) ++ '\n' :: [])))))))))))))))) := by
  have hdr : "apiVersion: v1\nkind: Config\nclusters:\n- cluster:\n    server: ".toList =
      "apiVersion: v1".toList ++ '\n' :: ("kind: Config".toList ++ '\n' ::
      ("clusters:".toList ++ '\n' :: ("- cluster:".toList ++ '\n' ::
      "    server: ".toList))) := by decide
  have trl : "  name: target-cluster\ncontexts:\n- context:\n    cluster: target-cluster\n    user: target-user\n  name: target-context\ncurrent-context: target-context\nusers:\n- name: target-user\n  user:\n    token: ".toList =
      "  name: target-cluster".toList ++ '\n' :: ("contexts:".toList ++ '\n' ::
      ("- context:".toList ++ '\n' :: ("    cluster: target-cluster".toList ++ '\n' ::
      ("    user: target-user".toList ++ '\n' :: ("  name: target-context".toList ++ '\n' ::
      ("current-context: target-context".toList ++ '\n' :: ("users:".toList ++ '\n' ::
      ("- name: target-user".toList ++ '\n' :: ("  user:".toList ++ '\n' ::
      "    token: ".toList))))))))) := by rfl
  have nl : "\n".toList = ['\n'] := rfl
  have ins : "    insecure-skip-tls-verify: true\n".toList =
      "    insecure-skip-tls-verify: true".toList ++ ['\n'] := by decide
  unfold kubeconfigContent tlsLine
  dsimp only
  rw [hdr, trl, nl, ins]
  split <;>
    simp only [List.append_assoc, List.cons_append, List.nil_append, List.singleton_append]

theorem kubeconfigContent_lines (config : ClusterConfig)
    (hs : '\n' ∉ config.Server) (ht : '\n' ∉ config.BearerToken) :
    textLines (kubeconfigContent config) =
      ["apiVersion: v1".toList, "kind: Config".toList, "clusters:".toList, "- cluster:".toList,
        "    server: ".toList ++ config.Server, tlsLine config,
        "  name: target-cluster".toList, "contexts:".toList, "- context:".toList,
        "    cluster: target-cluster".toList, "    user: target-user".toList,
        "  name: target-context".toList, "current-context: target-context".toList,
        "users:".toList, "- name: target-user".toList, "  user:".toList,
        "    token: ".toList ++ config.BearerToken, []] := by
  have h1 : '\n' ∉ "    server: ".toList ++ config.Server := by
    intro h
    rcases List.mem_append.mp h with h | h
    · revert h; decide
    · exact hs h
  have h2 : '\n' ∉ "    token: ".toList ++ config.BearerToken := by
    intro h
    rcases List.mem_append.mp h with h | h
    · revert h; decide
    · exact ht h
  rw [kubeconfigContent_eq]
  rw [textLines_line _ _ (by decide), textLines_line _ _ (by decide),
    textLines_line _ _ (by decide), textLines_line _ _ (by decide),
    textLines_line _ _ h1, textLines_line _ _ (tlsLine_no_newline config),
    textLines_line _ _ (by decide), textLines_line _ _ (by decide),
    textLines_line _ _ (by decide), textLines_line _ _ (by decide),
    textLines_line _ _ (by decide), textLines_line _ _ (by decide),
    textLines_line _ _ (by decide), textLines_line _ _ (by decide),
    textLines_line _ _ (by decide), textLines_line _ _ (by decide),
    textLines_line _ _ h2]
  rfl

theorem hasKey_indent4 (key rest : GoString) (c k : Char) (hc : c ≠ ' ') (hk : k ≠ c) :
    hasKey (k :: key) (' ' :: ' ' :: ' ' :: ' ' :: c :: rest) = false := by
  simp [hasKey, List.dropWhile_cons, hc, List.isPrefixOf, hk]

theorem valueAfter_of_infix {marker c : GoString} (h : marker <:+: c) :
    ∃ v, valueAfter marker c = some v := by
  unfold valueAfter
  cases hi : Index c marker with
  | none => exact absurd h (Index_none_iff.mp hi)
  | some m => exact ⟨_, rfl⟩

theorem infix_of_valueAfter {marker c v : GoString} (h : valueAfter marker c = some v) :
    marker <:+: c := by
  unfold valueAfter at h
  cases hi : Index c marker with
  | none => rw [hi] at h; cases h
  | some m =>
    rw [← Contains_iff]
    unfold Contains
    rw [hi]
    rfl

theorem kubeconfigContent_no_key (config : ClusterConfig) (k : Char) (key : GoString)
    (hs : '\n' ∉ config.Server) (ht : '\n' ∉ config.BearerToken)
    (htls : hasKey (k :: key) (tlsLine config) = false)
    (hk1 : k ≠ 's') (hk2 : k ≠ 't')
    (hlit : ∀ l ∈ ["apiVersion: v1".toList, "kind: Config".toList, "clusters:".toList,
      "- cluster:".toList, "  name: target-cluster".toList, "contexts:".toList,
      "- context:".toList, "    cluster: target-cluster".toList,
      "    user: target-user".toList, "  name: target-context".toList,
      "current-context: target-context".toList, "users:".toList,
      "- name: target-user".toList, "  user:".toList, []], hasKey (k :: key) l = false) :
    ∀ l ∈ textLines (kubeconfigContent config), hasKey (k :: key) l = false := by
  have h1 : hasKey (k :: key) ("    server: ".toList ++ config.Server) = false :=
    hasKey_indent4 key ("erver: ".toList ++ config.Server) 's' k (by decide) hk1
  have h2 : hasKey (k :: key) ("    token: ".toList ++ config.BearerToken) = false :=
    hasKey_indent4 key ("oken: ".toList ++ config.BearerToken) 't' k (by decide) hk2
  rw [kubeconfigContent_lines config hs ht]
  intro l hl
  simp only [List.mem_cons, List.mem_singleton, List.not_mem_nil, or_false] at hl hlit
  rcases hl with h | h | h | h | h | h | h | h | h | h | h | h | h | h | h | h | h | h
  · exact hlit l (Or.inl h)
  · exact hlit l (Or.inr (Or.inl h))
  · exact hlit l (Or.inr (Or.inr (Or.inl h)))
  · exact hlit l (Or.inr (Or.inr (Or.inr (Or.inl h))))
  · rw [h]; exact h1
  · rw [h]; exact htls
  · exact hlit l (by simp only [h, true_or, or_true])
  · exact hlit l (by simp only [h, true_or, or_true])
  · exact hlit l (by simp only [h, true_or, or_true])
  · exact hlit l (by simp only [h, true_or, or_true])
  · exact hlit l (by simp only [h, true_or, or_true])
  · exact hlit l (by simp only [h, true_or, or_true])
  · exact hlit l (by simp only [h, true_or, or_true])
  · exact hlit l (by simp only [h, true_or, or_true])
  · exact hlit l (by simp only [h, true_or, or_true])
  · exact hlit l (by simp only [h, true_or, or_true])
  · rw [h]; exact h2
  · exact hlit l (by simp only [h, true_or, or_true])

theorem GenerateKubeconfigFile_writes (env : Env) (uuid : GoString) (config : ClusterConfig)
    (fs : FS) (hremote : config.IsInCluster = false) :
    (∃ p fs1, GenerateKubeconfigFile env uuid config fs = (.ok (some p), fs1) ∧
        fs1.lookup p = some (Node.file (kubeconfigContent config) 0o600)) ∨
      ∃ err, GenerateKubeconfigFile env uuid config fs = (.error err, fs) := by
  unfold GenerateKubeconfigFile
  rw [hremote]
  simp only [Bool.false_eq_true, if_false]
  cases hw : osWriteFile fs (joinElem env.TempDir ("kubeconfig-".toList ++ uuid ++ ".yaml".toList))
      (kubeconfigContent config) 0o600 with
  | error err => exact Or.inr ⟨_, rfl⟩
  | ok fs2 =>
    refine Or.inl ⟨_, fs2, rfl, ?_⟩
    unfold osWriteFile at hw
    split at hw
    · cases hw
    · cases hw
      simp [List.lookup]

theorem GetClusterConfig_in_cluster (m : ClusterCredentialManager) (clusterURL clusterName : GoString)
    (h : (clusterURL = [] ∧ clusterName = []) ∨
      clusterURL = "https://kubernetes.default.svc".toList) :
    (GetClusterConfig m clusterURL clusterName).result =
      .ok { Server := [], BearerToken := [], CAData := [], IsInCluster := true } := by
  unfold GetClusterConfig
  split
  · rfl
  · next h1 =>
    rcases h with h | h
    · exact absurd h h1
    · rw [if_pos h]

/-! ## The claims -/

/-- C1: for every manager, also one whose listing fails, `GetClusterConfig`
returns the descriptor `{IsInCluster: true}` with empty `Server`, `BearerToken`
and `CAData` and lists no secrets, when URL and name are both empty or the URL
is `https://kubernetes.default.svc`. -/
theorem C1_in_cluster_without_lookup (m : ClusterCredentialManager)
    (clusterURL clusterName : GoString)
    (h : (clusterURL = [] ∧ clusterName = []) ∨
      clusterURL = "https://kubernetes.default.svc".toList) :
    (GetClusterConfig m clusterURL clusterName).result =
        .ok { Server := [], BearerToken := [], CAData := [], IsInCluster := true } ∧
      (GetClusterConfig m clusterURL clusterName).lookups = [] := by
  unfold GetClusterConfig
  split
  · exact ⟨rfl, rfl⟩
  · next h1 =>
    rcases h with h | h
    · exact absurd h h1
    · rw [if_pos h]
      exact ⟨rfl, rfl⟩

/-- C1 at the local URL with a name, on a manager whose listing fails. -/
theorem C1_in_cluster_without_lookup_witness :
    (GetClusterConfig failingManager localURL "prod".toList).result =
        .ok { Server := [], BearerToken := [], CAData := [], IsInCluster := true } ∧
      (GetClusterConfig failingManager localURL "prod".toList).lookups = [] :=
  C1_in_cluster_without_lookup failingManager localURL "prod".toList (Or.inr rfl)

/-- C2 as stated fails: the listing holds a record whose `server` equals the
query URL up to the trailing slash, the query is not the in-cluster case, and
`GetClusterConfig` returns the decode error of that record, no descriptor. -/
theorem C2_counterexample :
    (∃ s ∈ [recordNoToken], ∃ srv, s.Data.lookup "server" = some srv ∧
        TrimSuffix srv "/".toList = TrimSuffix "https://a.example".toList "/".toList) ∧
      ¬ (("https://a.example".toList = [] ∧ ([] : GoString) = []) ∨
        "https://a.example".toList = "https://kubernetes.default.svc".toList) ∧
      (managerOf [recordNoToken]).clientset (managerOf [recordNoToken]).argocdNamespace
        clusterSelector = .ok [recordNoToken] ∧
      (GetClusterConfig (managerOf [recordNoToken]) "https://a.example".toList []).result =
        .error "cluster secret missing authentication credentials".toList := by
  refine ⟨⟨recordNoToken, List.mem_singleton.mpr rfl, "https://a.example/".toList, rfl, ?_⟩,
    ?_, rfl, ?_⟩
  · decide
  · decide
  · decide

/-- C2 amended: on a successful listing and a query with a non-empty URL that is
not the in-cluster case, if a record matches the URL up to one trailing slash,
every record that matches the name also matches the URL, and the records that
match the URL resolve to a non-empty bearer token, then `GetClusterConfig`
returns a descriptor whose `Server` equals the URL up to one trailing slash. -/
theorem C2_url_match_resolves (m : ClusterCredentialManager) (items : List Secret)
    (clusterURL clusterName : GoString)
    (hlist : m.clientset m.argocdNamespace clusterSelector = .ok items)
    (hq : ¬ ((clusterURL = [] ∧ clusterName = []) ∨
      clusterURL = "https://kubernetes.default.svc".toList))
    (hurl : clusterURL ≠ [])
    (hmatch : ∃ s ∈ items, ∃ srv, s.Data.lookup "server" = some srv ∧
      TrimSuffix srv "/".toList = TrimSuffix clusterURL "/".toList)
    (hname : ∀ s ∈ items, clusterName ≠ [] → s.Data.lookup "name" = some clusterName →
      ∃ srv, s.Data.lookup "server" = some srv ∧
        TrimSuffix srv "/".toList = TrimSuffix clusterURL "/".toList)
    (hcred : ∀ s ∈ items, (∃ srv, s.Data.lookup "server" = some srv ∧
      TrimSuffix srv "/".toList = TrimSuffix clusterURL "/".toList) → bearerOf s ≠ []) :
    ∃ cfg, (GetClusterConfig m clusterURL clusterName).result = .ok cfg ∧
      TrimSuffix cfg.Server "/".toList = TrimSuffix clusterURL "/".toList := by
  obtain ⟨s0, hs0, hm0⟩ := hmatch
  obtain ⟨r, hr⟩ := @rangeSecrets_isSome clusterURL clusterName items s0 hs0
    (Or.inl ⟨hurl, (matchesClusterURL_iff s0 clusterURL).mpr hm0⟩)
  obtain ⟨s, hs, hrs, hm⟩ := rangeSecrets_some hr
  have hsu : ∃ srv, s.Data.lookup "server" = some srv ∧
      TrimSuffix srv "/".toList = TrimSuffix clusterURL "/".toList := by
    rcases hm with hm | hm
    · exact (matchesClusterURL_iff s clusterURL).mp hm.2
    · exact hname s hs hm.1 ((matchesClusterName_iff s clusterName).mp hm.2)
  obtain ⟨srv, hsrv, htrim⟩ := hsu
  have hb := hcred s hs ⟨srv, hsrv, htrim⟩
  refine ⟨{ Server := srv, BearerToken := bearerOf s, CAData := caDataOf s,
            IsInCluster := false }, ?_, htrim⟩
  rw [GetClusterConfig_listed hq hlist, hr, hrs, parseClusterSecret_eq, hsrv]
  simp only [if_neg hb]

/-- C2 amended, at the record `https://a.example/` and the query
`https://a.example`. -/
theorem C2_url_match_resolves_witness :
    ∃ cfg, (GetClusterConfig (managerOf [recordA]) "https://a.example".toList []).result =
        .ok cfg ∧
      TrimSuffix cfg.Server "/".toList = TrimSuffix "https://a.example".toList "/".toList :=
  C2_url_match_resolves (managerOf [recordA]) [recordA] "https://a.example".toList [] rfl
    (by decide) (by decide)
    ⟨recordA, List.mem_singleton.mpr rfl, "https://a.example/".toList, rfl, by decide⟩
    (fun _ _ h => absurd rfl h)
    (fun s hs _ => by rw [List.mem_singleton.mp hs]; decide)

/-- C3: a record with no `token` field and no non-empty value after the bearer
marker in `config` makes `parseClusterSecret` fail, with the
missing-credentials error when `server` is present and the missing-server error
otherwise; and no descriptor that `parseClusterSecret` returns has an empty
`BearerToken`. -/
theorem C3_missing_credentials (secret : Secret)
    (htoken : secret.Data.lookup "token" = none)
    (hembedded : ∀ v, embeddedBearer secret = some v → v = []) :
    parseClusterSecret secret =
        .error (if (secret.Data.lookup "server").isSome then
          "cluster secret missing authentication credentials".toList
          else "cluster secret missing 'server' field".toList) ∧
      ∀ (s : Secret) (cfg : ClusterConfig),
        parseClusterSecret s = .ok cfg → cfg.BearerToken ≠ [] := by
  constructor
  · have hb : bearerOf secret = [] := by
      unfold bearerOf
      rw [htoken]
      cases he : embeddedBearer secret with
      | none => rfl
      | some v =>
        have := hembedded v he
        subst this
        rfl
    rw [parseClusterSecret_eq]
    cases secret.Data.lookup "server" with
    | none => rfl
    | some server => simp only [hb, if_true, Option.isSome_some]
  · intro s cfg h
    obtain ⟨server, _, hb, hcfg⟩ := parseClusterSecret_ok h
    rw [hcfg]
    exact hb

/-- C3 at a record whose `config` has the marker followed by an empty value. -/
theorem C3_missing_credentials_witness :
    parseClusterSecret recordEmptyEmbedded =
        .error (if (recordEmptyEmbedded.Data.lookup "server").isSome then
          "cluster secret missing authentication credentials".toList
          else "cluster secret missing 'server' field".toList) ∧
      ∀ (s : Secret) (cfg : ClusterConfig),
        parseClusterSecret s = .ok cfg → cfg.BearerToken ≠ [] :=
  C3_missing_credentials recordEmptyEmbedded rfl
    (fun v h => (Option.some.inj (show some [] = some v from h)).symm)

/-- C4 as stated fails: `config` holds the marker `"bearerToken":"`, the text
between it and the next `"` is empty, and the descriptor's `BearerToken` is the
top-level `token`, not that text. -/
theorem C4_counterexample :
    (∃ c, recordEmptyEmbeddedWithToken.Data.lookup "config" = some c ∧
        bearerMarker <:+: c ∧ valueAfter bearerMarker c = some []) ∧
      parseClusterSecret recordEmptyEmbeddedWithToken =
        .ok { Server := "https://b.example".toList, BearerToken := "tok".toList,
              CAData := [], IsInCluster := false } := by
  refine ⟨⟨configEmptyBearer, rfl, ?_, ?_⟩, ?_⟩
  · decide
  · decide
  · decide

/-- C4 amended: when `parseClusterSecret` succeeds and `config` holds the marker
`"bearerToken":"`, the text between its first occurrence and the next `"` is
the `BearerToken` if it is not empty (with or without a `token` field), and
if it is empty the `BearerToken` is the `token` field; when `config` is absent
or has no marker the `BearerToken` is the `token` field. -/
theorem C4_bearer_token_priority (secret : Secret) (cfg : ClusterConfig)
    (h : parseClusterSecret secret = .ok cfg) :
    (∀ c, secret.Data.lookup "config" = some c → bearerMarker <:+: c →
        ∃ v, valueAfter bearerMarker c = some v ∧ (v ≠ [] → cfg.BearerToken = v) ∧
          (v = [] → secret.Data.lookup "token" = some cfg.BearerToken)) ∧
      ((∀ c, secret.Data.lookup "config" = some c → ¬ bearerMarker <:+: c) →
        secret.Data.lookup "token" = some cfg.BearerToken) := by
  obtain ⟨server, _, hb, hcfg⟩ := parseClusterSecret_ok h
  have htok : bearerOf secret = (secret.Data.lookup "token").getD [] →
      secret.Data.lookup "token" = some cfg.BearerToken := by
    intro e
    rw [hcfg]
    simp only
    cases ht : secret.Data.lookup "token" with
    | none => rw [e, ht] at hb; exact absurd rfl hb
    | some t => rw [e, ht]; rfl
  constructor
  · intro c hc hin
    obtain ⟨v, hv⟩ := valueAfter_of_infix hin
    have he : embeddedBearer secret = some v := by
      unfold embeddedBearer; rw [hc]; exact hv
    refine ⟨v, hv, ?_, ?_⟩
    · intro hne
      rw [hcfg]
      simp only
      unfold bearerOf
      rw [he]
      cases v with
      | nil => exact absurd rfl hne
      | cons x xs => rfl
    · intro hnil
      subst hnil
      apply htok
      unfold bearerOf
      rw [he]
  · intro hno
    apply htok
    unfold bearerOf
    cases he : embeddedBearer secret with
    | none => rfl
    | some v =>
      exfalso
      unfold embeddedBearer at he
      cases hc : secret.Data.lookup "config" with
      | none => rw [hc] at he; cases he
      | some c =>
        rw [hc] at he
        exact hno c hc (infix_of_valueAfter he)

/-- C4 amended, at a record whose `config` holds `"bearerToken":"abc123"` and
which has no `token` field: the `BearerToken` is `abc123`. -/
theorem C4_bearer_token_priority_witness :
    parseClusterSecret recordEmbedded =
        .ok { Server := "https://c.example".toList, BearerToken := "abc123".toList,
              CAData := [], IsInCluster := false } ∧
      ∃ v, valueAfter bearerMarker configBearer = some v ∧
        (v ≠ [] → "abc123".toList = v) ∧
        (v = [] → recordEmbedded.Data.lookup "token" = some "abc123".toList) :=
  ⟨by decide,
    (C4_bearer_token_priority recordEmbedded
      { Server := "https://c.example".toList, BearerToken := "abc123".toList,
        CAData := [], IsInCluster := false } (by decide)).1
      configBearer rfl (by decide)⟩

/-- C5 as stated fails: the descriptor's `CAData` is set although `config` does
not hold the marker `"tlsClientConfig"` with its quotes. -/
theorem C5_counterexample :
    parseClusterSecret recordUnquotedTLS =
        .ok { Server := "https://d.example".toList, BearerToken := "tok".toList,
              CAData := [65, 66, 67], IsInCluster := false } ∧
      ∃ c, recordUnquotedTLS.Data.lookup "config" = some c ∧
        ¬ "\"tlsClientConfig\"".toList <:+: c := by
  refine ⟨by decide, configUnquotedTLS, rfl, ?_⟩
  decide

/-- C5 amended: a record with a `server` field that resolves to a non-empty
bearer token is decoded successfully whatever `config` holds for CA data, with
that `Server` and that `BearerToken`. `CAData` is set only when `config` holds
the words `tlsClientConfig` and `caData` (quotes are not looked for) and the
marker `"caData":"`, and is then the standard base64 decoding of the text
between that marker and the next `"`; when that text is not valid base64,
`CAData` is empty. -/
theorem C5_ca_data_lenient (secret : Secret) (server : GoString)
    (hserver : secret.Data.lookup "server" = some server)
    (hbearer : bearerOf secret ≠ []) :
    ∃ cfg, parseClusterSecret secret = .ok cfg ∧ cfg.Server = server ∧
      cfg.BearerToken = bearerOf secret ∧
      (cfg.CAData ≠ [] → ∃ c v, secret.Data.lookup "config" = some c ∧
        "tlsClientConfig".toList <:+: c ∧ "caData".toList <:+: c ∧ caMarker <:+: c ∧
        valueAfter caMarker c = some v ∧ DecodeString v = some cfg.CAData) ∧
      (∀ c v d, secret.Data.lookup "config" = some c → "tlsClientConfig".toList <:+: c →
        valueAfter caMarker c = some v → DecodeString v = some d → cfg.CAData = d) ∧
      (∀ c v, secret.Data.lookup "config" = some c → valueAfter caMarker c = some v →
        DecodeString v = none → cfg.CAData = []) := by
  refine ⟨{ Server := server, BearerToken := bearerOf secret, CAData := caDataOf secret,
            IsInCluster := false }, ?_, rfl, rfl, ?_, ?_, ?_⟩
  · rw [parseClusterSecret_eq, hserver]
    simp only [if_neg hbearer]
  · intro hne
    simp only at hne
    unfold caDataOf at hne ⊢
    cases hc : secret.Data.lookup "config" with
    | none => rw [hc] at hne; exact absurd rfl hne
    | some c =>
      rw [hc] at hne
      simp only at hne ⊢
      split at hne
      · next hg =>
        simp only [Bool.and_eq_true] at hg
        rw [if_pos (by simp only [Bool.and_eq_true]; exact hg)]
        cases hv : valueAfter caMarker c with
        | none => rw [hv] at hne; exact absurd rfl hne
        | some v =>
          rw [hv] at hne
          simp only at hne ⊢
          cases hd : DecodeString v with
          | none => rw [hd] at hne; exact absurd rfl hne
          | some d =>
            exact ⟨c, v, rfl, Contains_iff.mp hg.1, Contains_iff.mp hg.2,
              infix_of_valueAfter hv, hv, hd⟩
      · exact absurd rfl hne
  · intro c v d hc htls hv hd
    have hca : "caData".toList <:+: c :=
      (show "caData".toList <:+: caMarker by decide).trans (infix_of_valueAfter hv)
    simp only
    unfold caDataOf
    rw [hc]
    simp only [Contains_iff.mpr htls, Contains_iff.mpr hca, Bool.and_self, if_true, hv, hd,
      Option.getD_some]
  · intro c v hc hv hd
    simp only
    unfold caDataOf
    rw [hc]
    simp only [hv, hd, Option.getD_none, ite_self]

/-- C5 amended, at a record whose embedded CA data is `!!`: decoding succeeds
with the embedded token, and `CAData` stays empty. -/
theorem C5_ca_data_lenient_witness :
    DecodeString "!!".toList = none ∧
    ∃ cfg, parseClusterSecret recordBadCA = .ok cfg ∧ cfg.Server = "https://e.example".toList ∧
      cfg.BearerToken = bearerOf recordBadCA ∧
      (cfg.CAData ≠ [] → ∃ c v, recordBadCA.Data.lookup "config" = some c ∧
        "tlsClientConfig".toList <:+: c ∧ "caData".toList <:+: c ∧ caMarker <:+: c ∧
        valueAfter caMarker c = some v ∧ DecodeString v = some cfg.CAData) ∧
      (∀ c v d, recordBadCA.Data.lookup "config" = some c → "tlsClientConfig".toList <:+: c →
        valueAfter caMarker c = some v → DecodeString v = some d → cfg.CAData = d) ∧
      (∀ c v, recordBadCA.Data.lookup "config" = some c → valueAfter caMarker c = some v →
        DecodeString v = none → cfg.CAData = []) :=
  ⟨by decide, C5_ca_data_lenient recordBadCA "https://e.example".toList rfl (by decide)⟩

/-- C6 as stated fails: a record whose `server` field is present and empty is
matched by name and decoded; the descriptor returned has `IsInCluster` false
and an empty `Server`, so neither alternative of the invariant holds. -/
theorem C6_counterexample :
    ∃ cfg, (GetClusterConfig (managerOf [recordEmptyServer]) [] "x".toList).result = .ok cfg ∧
      ¬ (cfg.IsInCluster = true) ∧ ¬ (cfg.Server ≠ [] ∧ cfg.BearerToken ≠ []) :=
  ⟨{ Server := [], BearerToken := "t".toList, CAData := [], IsInCluster := false },
    by decide, by decide, fun h => h.1 rfl⟩

/-- C6 amended: a descriptor that `GetClusterConfig` returns satisfies exactly
one of: `IsInCluster` is true; or `BearerToken` is non-empty and `Server` is the
`server` field of a listed record (a field that is present, and that may be
empty). -/
theorem C6_descriptor_invariant (m : ClusterCredentialManager)
    (clusterURL clusterName : GoString) (cfg : ClusterConfig)
    (h : (GetClusterConfig m clusterURL clusterName).result = .ok cfg) :
    Xor' (cfg.IsInCluster = true)
      (cfg.BearerToken ≠ [] ∧ ∃ items, m.clientset m.argocdNamespace clusterSelector = .ok items ∧
        ∃ s ∈ items, s.Data.lookup "server" = some cfg.Server) := by
  by_cases hq : (clusterURL = [] ∧ clusterName = []) ∨
      clusterURL = "https://kubernetes.default.svc".toList
  · have h1 := (GetClusterConfig_in_cluster m clusterURL clusterName hq)
    rw [h1] at h
    have e := Except.ok.inj h
    subst e
    exact Or.inl ⟨rfl, fun hb => hb.1 rfl⟩
  · cases hl : m.clientset m.argocdNamespace clusterSelector with
    | error err =>
      exfalso
      unfold GetClusterConfig at h
      rw [if_neg (fun x => hq (Or.inl x)), if_neg (fun x => hq (Or.inr x))] at h
      unfold clusterSelector at hl
      simp only [hl] at h
      cases h
    | ok items =>
      rw [GetClusterConfig_listed hq hl] at h
      cases hr : rangeSecrets clusterURL clusterName items with
      | none => rw [hr] at h; cases h
      | some r =>
        rw [hr] at h
        simp only at h
        obtain ⟨s, hs, hrs, _⟩ := rangeSecrets_some hr
        rw [hrs] at h
        obtain ⟨server, hserver, hb, hcfg⟩ := parseClusterSecret_ok h
        subst hcfg
        exact Or.inr ⟨⟨hb, items, rfl, s, hs, hserver⟩, fun hc => by cases hc⟩

/-- C6 amended, at a record resolved by its URL. -/
theorem C6_descriptor_invariant_witness :
    Xor' ((false : Bool) = true)
      ("t0k3n".toList ≠ [] ∧ ∃ items, (managerOf [recordA]).clientset
          (managerOf [recordA]).argocdNamespace clusterSelector = .ok items ∧
        ∃ s ∈ items, s.Data.lookup "server" = some "https://a.example/".toList) :=
  C6_descriptor_invariant (managerOf [recordA]) "https://a.example".toList []
    { Server := "https://a.example/".toList, BearerToken := "t0k3n".toList, CAData := [],
      IsInCluster := false } (by decide)

/-- C7 as stated fails: for a descriptor with CA data whose token carries a line
break, the text holds the `certificate-authority-data` line and also a line
`insecure-skip-tls-verify: true`. -/
theorem C7_counterexample :
    configInjectedToken.IsInCluster = false ∧ configInjectedToken.CAData ≠ [] ∧
      "    certificate-authority-data: QQ==".toList ∈
        textLines (kubeconfigContent configInjectedToken) ∧
      "    insecure-skip-tls-verify: true".toList ∈
        textLines (kubeconfigContent configInjectedToken) := by
  decide

/-- C7 amended: for a non-in-cluster descriptor whose `Server` and `BearerToken`
hold no line break, `GenerateKubeconfigFile` writes the text `kubeconfigContent`
(or fails to write), and that text has the line
`server: <Server>`, the line `token: <BearerToken>` and exactly one TLS line:
with CA data, `certificate-authority-data: <b>` where `<b>` is the standard
base64 encoding of the CA bytes (decoding it gives them back) and no line with
the key `insecure-skip-tls-verify`; without CA data,
`insecure-skip-tls-verify: true` and no line with the key
`certificate-authority-data`. -/
theorem C7_kubeconfig_text (config : ClusterConfig) (hremote : config.IsInCluster = false)
    (hs : '\n' ∉ config.Server) (ht : '\n' ∉ config.BearerToken) :
    (∀ (env : Env) (uuid : GoString) (fs : FS),
        (∃ p fs1, GenerateKubeconfigFile env uuid config fs = (.ok (some p), fs1) ∧
          fs1.lookup p = some (Node.file (kubeconfigContent config) 0o600)) ∨
        ∃ err, GenerateKubeconfigFile env uuid config fs = (.error err, fs)) ∧
      ("    server: ".toList ++ config.Server) ∈ textLines (kubeconfigContent config) ∧
      ("    token: ".toList ++ config.BearerToken) ∈ textLines (kubeconfigContent config) ∧
      (config.CAData ≠ [] →
        ("    certificate-authority-data: ".toList ++ EncodeToString config.CAData) ∈
            textLines (kubeconfigContent config) ∧
          DecodeString (EncodeToString config.CAData) = some config.CAData ∧
          ∀ l ∈ textLines (kubeconfigContent config),
            hasKey "insecure-skip-tls-verify".toList l = false) ∧
      (config.CAData = [] →
        "    insecure-skip-tls-verify: true".toList ∈ textLines (kubeconfigContent config) ∧
          ∀ l ∈ textLines (kubeconfigContent config),
            hasKey "certificate-authority-data".toList l = false) := by
  have hlines := kubeconfigContent_lines config hs ht
  refine ⟨fun env uuid fs => GenerateKubeconfigFile_writes env uuid config fs hremote,
    ?_, ?_, ?_, ?_⟩
  · rw [hlines]; simp
  · rw [hlines]; simp
  · intro hca
    have hpos : config.CAData.length > 0 := List.length_pos.mpr hca
    have htl : tlsLine config =
        "    certificate-authority-data: ".toList ++ EncodeToString config.CAData := by
      unfold tlsLine; rw [if_pos hpos]
    refine ⟨?_, DecodeString_EncodeToString _, ?_⟩
    · rw [hlines, htl]; simp
    · refine kubeconfigContent_no_key config 'i' "nsecure-skip-tls-verify".toList hs ht ?_
        (by decide) (by decide) (by decide)
      rw [htl]
      exact hasKey_indent4 _ ("ertificate-authority-data: ".toList ++
        EncodeToString config.CAData) 'c' 'i' (by decide) (by decide)
  · intro hca
    have htl : tlsLine config = "    insecure-skip-tls-verify: true".toList := by
      unfold tlsLine; rw [hca]; rfl
    refine ⟨?_, ?_⟩
    · rw [hlines, htl]; simp
    · refine kubeconfigContent_no_key config 'c' "ertificate-authority-data".toList hs ht ?_
        (by decide) (by decide) (by decide)
      rw [htl]
      decide

/-- C7 amended, at a descriptor with the CA bytes `ABC`: the text has the line
`certificate-authority-data: QUJD`. -/
theorem C7_kubeconfig_text_witness :
    "    certificate-authority-data: QUJD".toList ∈ textLines (kubeconfigContent configWithCA) ∧
      DecodeString "QUJD".toList = some [65, 66, 67] ∧
      ∀ l ∈ textLines (kubeconfigContent configWithCA),
        hasKey "insecure-skip-tls-verify".toList l = false :=
  (C7_kubeconfig_text configWithCA rfl (by decide) (by decide)).2.2.2.1 (by decide)

/-- C8 (the code misses it): after a download whose copy wrote the staged file,
and after an upload whether its copy succeeded or failed, the request's staging
directory still exists and still holds the staged file: `os.Remove` does not
remove a directory that has entries. -/
theorem C8_staging_directory_remains :
    ((getFiles (envWith (some (managerOf [])) kubectlCopiesFromPod) stagingUUID kubeconfigUUID
          localDownload initialWorld).1.status = 200 ∧
      FS.isDir (getFiles (envWith (some (managerOf [])) kubectlCopiesFromPod) stagingUUID
          kubeconfigUUID localDownload initialWorld).2.fs stagingDir = true ∧
      FS.hasChild (getFiles (envWith (some (managerOf [])) kubectlCopiesFromPod) stagingUUID
          kubeconfigUUID localDownload initialWorld).2.fs stagingDir = true) ∧
    ((postFiles (envWith (some (managerOf [])) kubectlCopiesToPod) stagingUUID kubeconfigUUID
          localUpload initialWorld).1.status = 201 ∧
      FS.isDir (postFiles (envWith (some (managerOf [])) kubectlCopiesToPod) stagingUUID
          kubeconfigUUID localUpload initialWorld).2.fs stagingDir = true) ∧
    ((postFiles (envWith (some (managerOf [])) kubectlFails) stagingUUID kubeconfigUUID
          localUpload initialWorld).1.status = 500 ∧
      FS.isDir (postFiles (envWith (some (managerOf [])) kubectlFails) stagingUUID
          kubeconfigUUID localUpload initialWorld).2.fs stagingDir = true) := by
  decide

/-- C9 (the code misses it): with a nil `credManager`, a download and an upload
that name a remote cluster are answered 200 and 201, and the one `kubectl` run
each makes has no `KUBECONFIG`: it runs with the ambient in-cluster identity. -/
theorem C9_nil_manager_runs_ambient :
    ((getFiles (envWith none kubectlCopiesFromPod) stagingUUID kubeconfigUUID
          remoteDownload initialWorld).1.status = 200 ∧
      (getFiles (envWith none kubectlCopiesFromPod) stagingUUID kubeconfigUUID
          remoteDownload initialWorld).2.calls.map KubectlCall.kubeconfig = [none]) ∧
    ((postFiles (envWith none kubectlCopiesToPod) stagingUUID kubeconfigUUID
          remoteUpload initialWorld).1.status = 201 ∧
      (postFiles (envWith none kubectlCopiesToPod) stagingUUID kubeconfigUUID
          remoteUpload initialWorld).2.calls.map KubectlCall.kubeconfig = [none]) := by
  decide

/-- C10: on a successful listing and a query that is not the in-cluster case,
when no record's `server` equals the URL up to one trailing slash (URL given)
and no record's `name` equals the name (name given), `GetClusterConfig` returns
the error `cluster not found: <id>`, `<id>` being the URL if it is non-empty and
the name otherwise; whatever manager fails to list returns another error,
`failed to list cluster secrets: ...`. -/
theorem C10_cluster_not_found (m : ClusterCredentialManager) (items : List Secret)
    (clusterURL clusterName : GoString)
    (hlist : m.clientset m.argocdNamespace clusterSelector = .ok items)
    (hq : ¬ ((clusterURL = [] ∧ clusterName = []) ∨
      clusterURL = "https://kubernetes.default.svc".toList))
    (hurl : clusterURL ≠ [] → ∀ s ∈ items, ∀ srv, s.Data.lookup "server" = some srv →
      TrimSuffix srv "/".toList ≠ TrimSuffix clusterURL "/".toList)
    (hname : clusterName ≠ [] → ∀ s ∈ items, s.Data.lookup "name" ≠ some clusterName) :
    (GetClusterConfig m clusterURL clusterName).result =
        .error ("cluster not found: ".toList ++
          (if clusterURL = [] then clusterName else clusterURL)) ∧
      ∀ (m2 : ClusterCredentialManager) (err : GoString),
        m2.clientset m2.argocdNamespace clusterSelector = .error err →
          (GetClusterConfig m2 clusterURL clusterName).result =
              .error ("failed to list cluster secrets: ".toList ++ err) ∧
            (GetClusterConfig m2 clusterURL clusterName).result ≠
              (GetClusterConfig m clusterURL clusterName).result := by
  have hnone : rangeSecrets clusterURL clusterName items = none := by
    apply rangeSecrets_none
    · intro h s hs
      cases hm : matchesClusterURL s clusterURL with
      | false => rfl
      | true =>
        obtain ⟨srv, hsrv, ht⟩ := (matchesClusterURL_iff s clusterURL).mp hm
        exact absurd ht (hurl h s hs srv hsrv)
    · intro h s hs
      cases hm : matchesClusterName s clusterName with
      | false => rfl
      | true => exact absurd ((matchesClusterName_iff s clusterName).mp hm) (hname h s hs)
  have hres : (GetClusterConfig m clusterURL clusterName).result =
      .error ("cluster not found: ".toList ++
        (if clusterURL = [] then clusterName else clusterURL)) := by
    rw [GetClusterConfig_listed hq hlist, hnone]
  refine ⟨hres, ?_⟩
  intro m2 err herr
  have h2 : (GetClusterConfig m2 clusterURL clusterName).result =
      .error ("failed to list cluster secrets: ".toList ++ err) := by
    unfold GetClusterConfig
    rw [if_neg (fun x => hq (Or.inl x)), if_neg (fun x => hq (Or.inr x))]
    unfold clusterSelector at herr
    simp only [herr]
  refine ⟨h2, ?_⟩
  rw [h2, hres]
  intro h
  have hhead := congrArg List.head? (Except.error.inj h)
  simp at hhead

/-- C10 at a listing with one record and a query for another URL, and at a query
by a name that no record has. -/
theorem C10_cluster_not_found_witness :
    (GetClusterConfig (managerOf [recordA]) "https://z.example".toList "prod".toList).result =
        .error ("cluster not found: ".toList ++
          (if "https://z.example".toList = [] then "prod".toList
            else "https://z.example".toList)) ∧
      ∀ (m2 : ClusterCredentialManager) (err : GoString),
        m2.clientset m2.argocdNamespace clusterSelector = .error err →
          (GetClusterConfig m2 "https://z.example".toList "prod".toList).result =
              .error ("failed to list cluster secrets: ".toList ++ err) ∧
            (GetClusterConfig m2 "https://z.example".toList "prod".toList).result ≠
              (GetClusterConfig (managerOf [recordA]) "https://z.example".toList
                "prod".toList).result :=
  C10_cluster_not_found (managerOf [recordA]) [recordA] "https://z.example".toList
    "prod".toList rfl (by decide)
    (fun _ s hs srv hsrv => by
      rw [List.mem_singleton.mp hs] at hsrv
      cases hsrv
      decide)
    (fun _ s hs => by
      rw [List.mem_singleton.mp hs]
      decide)

end PodFiles
